import Mathlib

/-
Shallow embedding of the image-base64 utility (src/src/main.rs), a Yew
browser app that reads a selected image file, base64-encodes it, and derives
metadata (format label, human-readable size, dimensions, aspect ratio).

Modelling conventions:
  - Rust u32 and u64 values are modelled as Nat; every operation performed by
    the program (%, /, gcd) maps values into the input range, so no overflow
    wrapping can occur and the Nat model is exact.
  - Rust f64 arithmetic in format_size is modelled with exact rationals: for
    inputs below 2 to the 53rd power the u64-to-f64 conversion is exact, each
    division by 1024.0 only lowers the binary exponent and is exact, and the
    formatting with two digits of precision rounds the exact value to the
    nearest hundredth with ties to even, which is what Rust's fixed-precision
    float formatting does.
  - Rust panics are modelled as Option.none or as an explicit panics outcome.
  - Rust strings are modelled as Lean String (a list of characters in this
    toolchain); str.to_uppercase is modelled character-wise, which agrees with
    Rust on ASCII input.
-/

namespace ImageBase64

/-! ## gcd and aspect-ratio reduction (main.rs lines 311-323) -/

-- fn gcd(mut a: u32, mut b: u32) -> u32 { while b != 0 { let temp = b; b = a % b; a = temp; } a }
def gcd (a b : ℕ) : ℕ :=
  if b = 0 then a else gcd b (a % b)
  termination_by b
  decreasing_by exact Nat.mod_lt _ (Nat.pos_of_ne_zero (by assumption))

-- The same loop with an explicit fuel budget: each fuel unit pays for one
-- loop-condition check, so returning some means the while loop exited.
def gcdFuel : ℕ → ℕ → ℕ → Option ℕ
  | 0, _, _ => none
  | fuel + 1, a, b => if b = 0 then some a else gcdFuel fuel b (a % b)

-- fn calculate_aspect_ratio(width: u32, height: u32) -> (u32, u32);
-- Rust integer division panics when the divisor is 0, modelled as none.
def calculate_aspect_ratio (width height : ℕ) : Option (ℕ × ℕ) :=
  let g := gcd width height
  if g = 0 then none else some (width / g, height / g)

/-! ## Filename format detection (main.rs lines 303-309) -/

-- str::split(c) yields the pieces between separators; on a string with no
-- separator it yields the whole string, and on the empty string one empty
-- piece.  The accumulator holds the current piece reversed.
def splitOnCharAux (c : Char) : List Char → List Char → List (List Char)
  | [], acc => [acc.reverse]
  | x :: xs, acc =>
    if x = c then acc.reverse :: splitOnCharAux c xs []
    else splitOnCharAux c xs (x :: acc)

def rustSplit (c : Char) (s : String) : List String :=
  (splitOnCharAux c s.toList []).map String.mk

-- str::to_uppercase, character-wise (exact on ASCII).
def to_uppercase (s : String) : String :=
  String.mk (s.toList.map Char.toUpper)

-- fn get_file_format(filename: &str) -> String
-- filename.split('.').last().map(|s| s.to_uppercase()).unwrap_or_else(|| String::from("未知"))
def get_file_format (filename : String) : String :=
  match (rustSplit '.' filename).getLast? with
  | some s => to_uppercase s
  | none => "未知"

/-! ## Byte-size formatting (main.rs lines 286-301) -/

-- const UNITS: [&str; 4] = ["B", "KB", "MB", "GB"];
def rustUnits : ℕ → String
  | 0 => "B"
  | 1 => "KB"
  | 2 => "MB"
  | _ => "GB"

-- while size >= 1024.0 && unit_index < UNITS.len() - 1 { size /= 1024.0; unit_index += 1; }
-- The loop body runs at most 3 times (unit_index < 3 is part of the guard),
-- so fuel 3 makes the fuel-indexed version agree with the Rust loop exactly.
def scaleLoopF : ℕ → ℚ → ℕ → ℚ × ℕ
  | 0, size, unit_index => (size, unit_index)
  | fuel + 1, size, unit_index =>
    if 1024 ≤ size ∧ unit_index < 3 then scaleLoopF fuel (size / 1024) (unit_index + 1)
    else (size, unit_index)

-- `size as u64` for a nonnegative value: truncation toward zero, i.e. floor.
def floorNat (q : ℚ) : ℕ := q.num.toNat / q.den

-- Round a nonnegative rational to the nearest integer, ties to even: the
-- rounding Rust's fixed-precision float formatting applies to the exact
-- binary value.
def rhe (x : ℚ) : ℕ :=
  let n := floorNat x
  if x - n < 1 / 2 then n
  else if 1 / 2 < x - n then n + 1
  else if n % 2 = 0 then n else n + 1

def pad2 (n : ℕ) : String :=
  if n < 10 then "0" ++ Nat.repr n else Nat.repr n

-- format!("{:.2}", q) on an exactly-represented nonnegative value.
def fmt2 (q : ℚ) : String :=
  let c := rhe (q * 100)
  Nat.repr (c / 100) ++ "." ++ pad2 (c % 100)

-- fn format_size(size: u64) -> String
def format_size (size : ℕ) : String :=
  let p := scaleLoopF 3 (size : ℚ) 0
  if p.2 = 0 then Nat.repr (floorNat p.1) ++ " " ++ rustUnits p.2
  else fmt2 p.1 ++ " " ++ rustUnits p.2

/-! ## Base64 encoding

Modelled from the spec: the external base64 crate's STANDARD engine is not
part of this repository; per the spec it is the RFC 4648 standard alphabet
with padding characters, applied to the raw file bytes with no line
wrapping.  A decoder (a verification artifact, not program code) witnesses
that the encoding is invertible on the original bytes. -/

def b64Alphabet : List Char :=
  "ABCDEFGHIJKLMNOPQRSTUVWXYZabcdefghijklmnopqrstuvwxyz0123456789+/".toList

def b64Enc (n : ℕ) : Char := b64Alphabet.getD n 'A'

def b64Dec (c : Char) : Option ℕ := b64Alphabet.findIdx? (fun x => x = c)

def encodeChunks : List ℕ → List Char
  | [] => []
  | [b0] => [b64Enc (b0 / 4), b64Enc (b0 % 4 * 16), '=', '=']
  | [b0, b1] => [b64Enc (b0 / 4), b64Enc (b0 % 4 * 16 + b1 / 16), b64Enc (b1 % 16 * 4), '=']
  | b0 :: b1 :: b2 :: rest =>
    b64Enc (b0 / 4) :: b64Enc (b0 % 4 * 16 + b1 / 16) ::
      b64Enc (b1 % 16 * 4 + b2 / 64) :: b64Enc (b2 % 64) :: encodeChunks rest

def base64_encode (bytes : List ℕ) : String := String.mk (encodeChunks bytes)

def decodeChunks : List Char → Option (List ℕ)
  | [] => some []
  | c0 :: c1 :: c2 :: c3 :: rest =>
    match b64Dec c0, b64Dec c1 with
    | some a, some b =>
      if c2 = '=' then
        if c3 = '=' then
          if rest = [] then some [a * 4 + b / 16] else none
        else none
      else
        match b64Dec c2 with
        | some c =>
          if c3 = '=' then
            if rest = [] then some [a * 4 + b / 16, b % 16 * 16 + c / 4] else none
          else
            match b64Dec c3 with
            | some d =>
              (decodeChunks rest).map
                (fun tail => (a * 4 + b / 16) :: (b % 16 * 16 + c / 4) :: (c % 4 * 64 + d) :: tail)
            | none => none
        | none => none
    | _, _ => none
  | _ => none

def base64_decode (s : String) : Option (List ℕ) := decodeChunks s.toList

/-! ## The Yew component (main.rs lines 10-151)

The update function is a reducer over the component state; the Rust version
mutates self and returns true (rerender) in every arm.  Spawned asynchronous
work (the byte read, setting the preview image source, the clipboard write,
the reset timer) is modelled as a list of emitted effects.  The gloo file
handle is modelled by the observable attributes the handler reads: name,
size and raw MIME type; the raw bytes only reach the program through the
read callback, modelled separately below. -/

structure RFile where
  name : String
  size : ℕ
  raw_mime_type : String
  deriving DecidableEq

inductive Msg where
  | FileSelected (file : RFile)
  | Loaded (data : String)
  | Files (files : List RFile)
  | ToggleModal
  | CopyBase64
  | ResetCopyButton
  | UpdateDimensions (dimensions : String)
  | UpdateImageInfo (dimensions aspect_ratio : String)
  deriving DecidableEq

structure ImageInfo where
  format : String
  size : String
  dimensions : String
  mime_type : String
  aspect_ratio : String
  deriving DecidableEq

inductive Effect where
  | StartRead (filename : String)
  | SetImgSrc (src : String)
  | SendMsg (msg : Msg)
  | ClipboardWrite (text : String)
  | Delayed (ms : ℕ) (msg : Msg)
  deriving DecidableEq

-- readers: HashMap<String, FileReader>, keyed by filename; only the key set
-- is observable in the model.  insert replaces an existing key.
def insertReader (name : String) (readers : List String) : List String :=
  name :: readers.filter (fun k => k ≠ name)

structure Model where
  readers : List String
  base64_data : Option String
  modal_open : Bool
  copy_button_text : String
  image_info : Option ImageInfo
  deriving DecidableEq

-- fn create (main.rs lines 42-50)
def createModel : Model :=
  { readers := []
    base64_data := none
    modal_open := false
    copy_button_text := "复制"
    image_info := none }

-- Outcome of the read_as_bytes callback (main.rs lines 70-74): on Ok the
-- bytes are base64-encoded and a Loaded message is sent; on Err the
-- res.expect call panics.
inductive CallbackResult where
  | sends (msg : Msg)
  | panics (message : String)
  deriving DecidableEq

def read_callback (res : Except String (List ℕ)) : CallbackResult :=
  match res with
  | .ok bytes => .sends (.Loaded (base64_encode bytes))
  | .error _ => .panics "failed to read file"

-- fn update (main.rs lines 52-151).  The returned Bool (always true) is
-- dropped.  In CopyBase64 the window handle is assumed present, as in a
-- browser runtime; String.length is the byte length of base64 output since
-- base64 text is ASCII.
def update (m : Model) (msg : Msg) : Model × List Effect :=
  match msg with
  | .FileSelected file =>
    ({ m with
        image_info := some
          { format := get_file_format file.name
            size := format_size file.size
            dimensions := "加载中..."
            mime_type := file.raw_mime_type
            aspect_ratio := "加载中..." }
        readers := insertReader file.name m.readers },
      [Effect.StartRead file.name])
  | .Loaded data =>
    match m.image_info with
    | some _ =>
      ({ m with base64_data := some data },
        [Effect.SetImgSrc ("data:image/png;base64," ++ data)])
    | none => ({ m with base64_data := some data }, [])
  | .UpdateDimensions dims =>
    match m.image_info with
    | some info => ({ m with image_info := some { info with dimensions := dims } }, [])
    | none => (m, [])
  | .Files files => (m, files.map (fun f => Effect.SendMsg (Msg.FileSelected f)))
  | .ToggleModal => ({ m with modal_open := !m.modal_open }, [])
  | .CopyBase64 =>
    match m.base64_data with
    | some b64 =>
      ({ m with copy_button_text := "已复制 " ++ format_size b64.length },
        [Effect.ClipboardWrite b64, Effect.Delayed 2000 Msg.ResetCopyButton])
    | none => (m, [])
  | .ResetCopyButton => ({ m with copy_button_text := "复制" }, [])
  | .UpdateImageInfo dims ratio =>
    match m.image_info with
    | some info =>
      ({ m with image_info := some { info with dimensions := dims, aspect_ratio := ratio } }, [])
    | none => (m, [])

/-! ## Helper lemmas -/

theorem gcd_eq_natGcd (a b : ℕ) : gcd a b = Nat.gcd a b := by
  by_cases h : b = 0
  · rw [gcd, if_pos h, h, Nat.gcd_zero_right]
  · rw [gcd, if_neg h, gcd_eq_natGcd b (a % b), Nat.gcd_comm b (a % b), ← Nat.gcd_rec b a,
      Nat.gcd_comm b a]
  termination_by b
  decreasing_by exact Nat.mod_lt _ (Nat.pos_of_ne_zero h)

theorem calc_ar_of_pos (w h : ℕ) (hw : 0 < w) (hh : 0 < h) :
    calculate_aspect_ratio w h = some (w / Nat.gcd w h, h / Nat.gcd w h) := by
  have hg : Nat.gcd w h ≠ 0 := Nat.pos_iff_ne_zero.mp (Nat.gcd_pos_of_pos_left h hw)
  simp [calculate_aspect_ratio, gcd_eq_natGcd, hg]

theorem gcdFuel_sufficient (b f a : ℕ) (h : b < f) : gcdFuel f a b = some (gcd a b) := by
  match f with
  | 0 => omega
  | f + 1 =>
    by_cases hb : b = 0
    · subst hb
      rw [gcd, if_pos rfl]
      simp [gcdFuel]
    · have hmod : a % b < b := Nat.mod_lt _ (Nat.pos_of_ne_zero hb)
      rw [show gcdFuel (f + 1) a b = gcdFuel f b (a % b) by simp [gcdFuel, hb]]
      rw [gcdFuel_sufficient (a % b) f b (by omega)]
      conv_rhs => rw [gcd]
      rw [if_neg hb]
  termination_by b
  decreasing_by exact Nat.mod_lt _ (Nat.pos_of_ne_zero hb)

/-! ## Claims about aspect-ratio reduction and gcd -/

/-- C4: for positive width and height, calculate_aspect_ratio divides both
components by their greatest common divisor (the iterative Euclidean loop
computes exactly Nat.gcd), the result is coprime and preserves the original
ratio, and the three concrete examples from the spec hold. -/
theorem calculate_aspect_ratio_reduces :
    (∀ w h : ℕ, 0 < w → 0 < h →
      calculate_aspect_ratio w h = some (w / Nat.gcd w h, h / Nat.gcd w h) ∧
      Nat.Coprime (w / Nat.gcd w h) (h / Nat.gcd w h) ∧
      w / Nat.gcd w h * h = h / Nat.gcd w h * w) ∧
    calculate_aspect_ratio 1920 1080 = some (16, 9) ∧
    calculate_aspect_ratio 100 100 = some (1, 1) ∧
    calculate_aspect_ratio 7 13 = some (7, 13) := by
  have gen : ∀ w h : ℕ, 0 < w → 0 < h →
      calculate_aspect_ratio w h = some (w / Nat.gcd w h, h / Nat.gcd w h) ∧
      Nat.Coprime (w / Nat.gcd w h) (h / Nat.gcd w h) ∧
      w / Nat.gcd w h * h = h / Nat.gcd w h * w := by
    intro w h hw hh
    have hg : 0 < Nat.gcd w h := Nat.gcd_pos_of_pos_left h hw
    refine ⟨calc_ar_of_pos w h hw hh, Nat.coprime_div_gcd_div_gcd hg, ?_⟩
    obtain ⟨w', hw'⟩ := Nat.gcd_dvd_left w h
    obtain ⟨h', hh'⟩ := Nat.gcd_dvd_right w h
    have ew : w / Nat.gcd w h = w' := by
      nth_rewrite 1 [hw']
      exact Nat.mul_div_cancel_left _ hg
    have eh : h / Nat.gcd w h = h' := by
      nth_rewrite 1 [hh']
      exact Nat.mul_div_cancel_left _ hg
    rw [ew, eh]
    conv_lhs => rw [hh']
    conv_rhs => rw [hw']
    ring
  refine ⟨gen, ?_, ?_, ?_⟩
  · rw [(gen 1920 1080 (by norm_num) (by norm_num)).1]; norm_num
  · rw [(gen 100 100 (by norm_num) (by norm_num)).1]; norm_num
  · rw [(gen 7 13 (by norm_num) (by norm_num)).1]; norm_num

theorem calculate_aspect_ratio_reduces_witness :
    calculate_aspect_ratio 640 480 = some (640 / Nat.gcd 640 480, 480 / Nat.gcd 640 480) :=
  (calculate_aspect_ratio_reduces.1 640 480 (by norm_num) (by norm_num)).1

/-- C2 counterexample: with height 0 the function does not return the input
pair unchanged (it returns (1, 0) on input (5, 0)), and on (0, 0) the Rust
division panics (modelled as none) instead of returning a result. -/
theorem calculate_aspect_ratio_zero_claim_false :
    calculate_aspect_ratio 5 0 = some (1, 0) ∧
    some ((1 : ℕ), (0 : ℕ)) ≠ some ((5 : ℕ), (0 : ℕ)) ∧
    calculate_aspect_ratio 0 0 = none := by
  refine ⟨?_, by decide, ?_⟩
  · simp [calculate_aspect_ratio, gcd_eq_natGcd]
  · simp [calculate_aspect_ratio, gcd_eq_natGcd]

/-- C2 amended: when exactly one component is 0 the function does not crash
but returns the pair with the nonzero component reduced to 1 ((w,0) maps to
(1,0) and (0,h) maps to (0,1)); only when both components are 0 does the
division panic. -/
theorem calculate_aspect_ratio_zero_cases :
    (∀ w : ℕ, w ≠ 0 → calculate_aspect_ratio w 0 = some (1, 0)) ∧
    (∀ h : ℕ, h ≠ 0 → calculate_aspect_ratio 0 h = some (0, 1)) ∧
    calculate_aspect_ratio 0 0 = none := by
  refine ⟨?_, ?_, ?_⟩
  · intro w hw
    simp [calculate_aspect_ratio, gcd_eq_natGcd, hw, Nat.div_self (Nat.pos_of_ne_zero hw)]
  · intro h hh
    simp [calculate_aspect_ratio, gcd_eq_natGcd, hh, Nat.div_self (Nat.pos_of_ne_zero hh)]
  · simp [calculate_aspect_ratio, gcd_eq_natGcd]

theorem calculate_aspect_ratio_zero_cases_witness :
    calculate_aspect_ratio 7 0 = some (1, 0) ∧ calculate_aspect_ratio 0 7 = some (0, 1) :=
  ⟨calculate_aspect_ratio_zero_cases.1 7 (by norm_num),
   calculate_aspect_ratio_zero_cases.2.1 7 (by norm_num)⟩

/-- C10: the gcd while loop terminates on every pair of inputs, zeroes
included: a fuel budget of b + 1 loop iterations always suffices (the loop
variable b strictly decreases), and calculate_aspect_ratio returns a value
whenever at least one component is nonzero. -/
theorem gcd_terminates :
    (∀ a b : ℕ, gcdFuel (b + 1) a b = some (gcd a b)) ∧
    (∀ w h : ℕ, w ≠ 0 ∨ h ≠ 0 → (calculate_aspect_ratio w h).isSome = true) := by
  constructor
  · intro a b
    exact gcdFuel_sufficient b (b + 1) a (by omega)
  · intro w h hwh
    have hg : Nat.gcd w h ≠ 0 := by
      cases hwh with
      | inl hw => exact fun hz => hw (Nat.eq_zero_of_gcd_eq_zero_left hz)
      | inr hh => exact fun hz => hh (Nat.eq_zero_of_gcd_eq_zero_right hz)
    simp [calculate_aspect_ratio, gcd_eq_natGcd, hg]

theorem gcd_terminates_witness : (calculate_aspect_ratio 0 5).isSome = true :=
  gcd_terminates.2 0 5 (Or.inr (by norm_num))

/-! ## Claims about filename format detection -/

theorem splitOnCharAux_ne_nil (c : Char) (l acc : List Char) : splitOnCharAux c l acc ≠ [] := by
  induction l generalizing acc with
  | nil => simp [splitOnCharAux]
  | cons x xs ih =>
    simp only [splitOnCharAux]
    split
    · simp
    · exact ih _

theorem splitOnCharAux_no_sep (c : Char) (l : List Char) (h : c ∉ l) :
    ∀ acc : List Char, splitOnCharAux c l acc = [acc.reverse ++ l] := by
  induction l with
  | nil => intro acc; simp [splitOnCharAux]
  | cons x xs ih =>
    intro acc
    rw [List.mem_cons, not_or] at h
    rw [splitOnCharAux, if_neg (Ne.symm h.1), ih h.2 (x :: acc)]
    simp

theorem getLast?_cons_of_ne_nil {α : Type} (a : α) {l : List α} (h : l ≠ []) :
    (a :: l).getLast? = l.getLast? := by
  cases l with
  | nil => exact absurd rfl h
  | cons b t => rfl

theorem splitOnCharAux_getLast (c : Char) (l₂ : List Char) (h : c ∉ l₂) :
    ∀ (l₁ acc : List Char), (splitOnCharAux c (l₁ ++ c :: l₂) acc).getLast? = some l₂ := by
  intro l₁
  induction l₁ with
  | nil =>
    intro acc
    rw [List.nil_append, splitOnCharAux, if_pos rfl, splitOnCharAux_no_sep c l₂ h []]
    rfl
  | cons x xs ih =>
    intro acc
    by_cases hx : x = c
    · rw [hx, List.cons_append, splitOnCharAux, if_pos rfl,
        getLast?_cons_of_ne_nil _ (splitOnCharAux_ne_nil c (xs ++ c :: l₂) [])]
      exact ih []
    · rw [List.cons_append, splitOnCharAux, if_neg hx]
      exact ih (x :: acc)

theorem getLast?_map {α β : Type} (f : α → β) (l : List α) :
    (l.map f).getLast? = l.getLast?.map f := by
  induction l with
  | nil => rfl
  | cons a t ih =>
    cases t with
    | nil => rfl
    | cons b u =>
      rw [List.map_cons, getLast?_cons_of_ne_nil _ (by simp),
        getLast?_cons_of_ne_nil _ (by simp), ih]

/-- C1: the claim that get_file_format returns the unknown sentinel for
dot-free and empty filenames is false on the code: str::split always yields
at least one piece, so split('.').last() is never None, the sentinel branch
is unreachable, and the function returns the uppercased whole filename
("noext" gives "NOEXT") and the empty string for "". -/
theorem get_file_format_no_dot_behavior :
    get_file_format "noext" = "NOEXT" ∧
    get_file_format "" = "" ∧
    (∀ filename : String, ((rustSplit '.' filename).getLast?).isSome = true) := by
  refine ⟨by decide, by decide, ?_⟩
  intro filename
  rw [Option.isSome_iff_ne_none]
  intro hnone
  rw [List.getLast?_eq_none_iff] at hnone
  exact splitOnCharAux_ne_nil '.' filename.toList [] (by simpa [rustSplit] using hnone)

/-- C5: for a filename containing a dot, get_file_format returns the
substring after the last dot, uppercased character-wise; in particular
"photo.PNG" gives "PNG" and "a.b.JPG" gives "JPG". -/
theorem get_file_format_extension :
    (∀ l₁ l₂ : List Char, '.' ∉ l₂ →
      get_file_format (String.mk (l₁ ++ '.' :: l₂)) = String.mk (l₂.map Char.toUpper)) ∧
    get_file_format "photo.PNG" = "PNG" ∧
    get_file_format "a.b.JPG" = "JPG" := by
  refine ⟨?_, by decide, by decide⟩
  intro l₁ l₂ h
  show (match (rustSplit '.' (String.mk (l₁ ++ '.' :: l₂))).getLast? with
    | some s => to_uppercase s
    | none => "未知") = String.mk (l₂.map Char.toUpper)
  rw [show rustSplit '.' (String.mk (l₁ ++ '.' :: l₂)) =
      (splitOnCharAux '.' (l₁ ++ '.' :: l₂) []).map String.mk from rfl]
  rw [getLast?_map, splitOnCharAux_getLast '.' l₂ h l₁ []]
  rfl

theorem get_file_format_extension_witness :
    get_file_format (String.mk (['p', 'h', 'o', 't', 'o'] ++ '.' :: ['P', 'N', 'G'])) =
      String.mk (['P', 'N', 'G'].map Char.toUpper) :=
  get_file_format_extension.1 ['p', 'h', 'o', 't', 'o'] ['P', 'N', 'G'] (by decide)

/-! ## Claims about byte-size formatting -/

theorem floorNat_natCast (n : ℕ) : floorNat (n : ℚ) = n := by
  simp [floorNat, Rat.num_natCast, Rat.den_natCast]

theorem format_size_b (n : ℕ) (h : n < 1024) : format_size n = Nat.repr n ++ " B" := by
  have hq : ¬ (1024 : ℚ) ≤ (n : ℚ) := by
    rw [not_le]
    exact_mod_cast h
  have hs : scaleLoopF 3 (n : ℚ) 0 = ((n : ℚ), 0) := by
    show (if (1024 : ℚ) ≤ (n : ℚ) ∧ (0 : ℕ) < 3 then scaleLoopF 2 ((n : ℚ) / 1024) 1
        else ((n : ℚ), 0)) = ((n : ℚ), 0)
    rw [if_neg (fun hc => hq hc.1)]
  have hform : format_size n = Nat.repr (floorNat (n : ℚ)) ++ " " ++ rustUnits 0 := by
    simp [format_size, hs]
  rw [hform, floorNat_natCast, String.append_assoc]
  rfl

theorem format_size_kb (n : ℕ) (h1 : 1024 ≤ n) (h2 : n < 1048576) :
    format_size n = fmt2 ((n : ℚ) / 1024) ++ " KB" ∧ (n : ℚ) / 1024 < 1024 := by
  have hq1 : (1024 : ℚ) ≤ (n : ℚ) := by exact_mod_cast h1
  have hlt : (n : ℚ) / 1024 < 1024 := by
    rw [div_lt_iff (by norm_num : (0 : ℚ) < 1024)]
    norm_num
    exact_mod_cast h2
  have hs : scaleLoopF 3 (n : ℚ) 0 = ((n : ℚ) / 1024, 1) := by
    show (if (1024 : ℚ) ≤ (n : ℚ) ∧ (0 : ℕ) < 3 then scaleLoopF 2 ((n : ℚ) / 1024) 1
        else ((n : ℚ), 0)) = ((n : ℚ) / 1024, 1)
    rw [if_pos ⟨hq1, by norm_num⟩]
    show (if (1024 : ℚ) ≤ (n : ℚ) / 1024 ∧ (1 : ℕ) < 3 then scaleLoopF 1 ((n : ℚ) / 1024 / 1024) 2
        else ((n : ℚ) / 1024, 1)) = ((n : ℚ) / 1024, 1)
    rw [if_neg (fun hc => absurd hc.1 (not_le.mpr hlt))]
  refine ⟨?_, hlt⟩
  have hform : format_size n = fmt2 ((n : ℚ) / 1024) ++ " " ++ rustUnits 1 := by
    simp [format_size, hs]
  rw [hform, String.append_assoc]
  rfl

theorem format_size_mb (n : ℕ) (h1 : 1048576 ≤ n) (h2 : n < 1073741824) :
    format_size n = fmt2 ((n : ℚ) / 1048576) ++ " MB" ∧ (n : ℚ) / 1048576 < 1024 := by
  have hq1 : (1024 : ℚ) ≤ (n : ℚ) := by
    have : (1048576 : ℚ) ≤ (n : ℚ) := by exact_mod_cast h1
    linarith
  have hq2 : (1024 : ℚ) ≤ (n : ℚ) / 1024 := by
    rw [le_div_iff (by norm_num : (0 : ℚ) < 1024)]
    norm_num
    exact_mod_cast h1
  have hcomb : (n : ℚ) / 1024 / 1024 = (n : ℚ) / 1048576 := by
    rw [div_div]
    norm_num
  have hlt : (n : ℚ) / 1048576 < 1024 := by
    rw [div_lt_iff (by norm_num : (0 : ℚ) < 1048576)]
    norm_num
    exact_mod_cast h2
  have hs : scaleLoopF 3 (n : ℚ) 0 = ((n : ℚ) / 1048576, 2) := by
    show (if (1024 : ℚ) ≤ (n : ℚ) ∧ (0 : ℕ) < 3 then scaleLoopF 2 ((n : ℚ) / 1024) 1
        else ((n : ℚ), 0)) = ((n : ℚ) / 1048576, 2)
    rw [if_pos ⟨hq1, by norm_num⟩]
    show (if (1024 : ℚ) ≤ (n : ℚ) / 1024 ∧ (1 : ℕ) < 3 then scaleLoopF 1 ((n : ℚ) / 1024 / 1024) 2
        else ((n : ℚ) / 1024, 1)) = ((n : ℚ) / 1048576, 2)
    rw [if_pos ⟨hq2, by norm_num⟩, hcomb]
    show (if (1024 : ℚ) ≤ (n : ℚ) / 1048576 ∧ (2 : ℕ) < 3 then
        scaleLoopF 0 ((n : ℚ) / 1048576 / 1024) 3 else ((n : ℚ) / 1048576, 2)) =
      ((n : ℚ) / 1048576, 2)
    rw [if_neg (fun hc => absurd hc.1 (not_le.mpr hlt))]
  refine ⟨?_, hlt⟩
  have hform : format_size n = fmt2 ((n : ℚ) / 1048576) ++ " " ++ rustUnits 2 := by
    simp [format_size, hs]
  rw [hform, String.append_assoc]
  rfl

theorem format_size_gb (n : ℕ) (h1 : 1073741824 ≤ n) :
    format_size n = fmt2 ((n : ℚ) / 1073741824) ++ " GB" := by
  have hq0 : (1073741824 : ℚ) ≤ (n : ℚ) := by exact_mod_cast h1
  have hq1 : (1024 : ℚ) ≤ (n : ℚ) := by linarith
  have hq2 : (1024 : ℚ) ≤ (n : ℚ) / 1024 := by
    rw [le_div_iff (by norm_num : (0 : ℚ) < 1024)]
    linarith
  have hcomb : (n : ℚ) / 1024 / 1024 = (n : ℚ) / 1048576 := by
    rw [div_div]
    norm_num
  have hq3 : (1024 : ℚ) ≤ (n : ℚ) / 1048576 := by
    rw [le_div_iff (by norm_num : (0 : ℚ) < 1048576)]
    linarith
  have hcomb2 : (n : ℚ) / 1048576 / 1024 = (n : ℚ) / 1073741824 := by
    rw [div_div]
    norm_num
  have hs : scaleLoopF 3 (n : ℚ) 0 = ((n : ℚ) / 1073741824, 3) := by
    show (if (1024 : ℚ) ≤ (n : ℚ) ∧ (0 : ℕ) < 3 then scaleLoopF 2 ((n : ℚ) / 1024) 1
        else ((n : ℚ), 0)) = ((n : ℚ) / 1073741824, 3)
    rw [if_pos ⟨hq1, by norm_num⟩]
    show (if (1024 : ℚ) ≤ (n : ℚ) / 1024 ∧ (1 : ℕ) < 3 then scaleLoopF 1 ((n : ℚ) / 1024 / 1024) 2
        else ((n : ℚ) / 1024, 1)) = ((n : ℚ) / 1073741824, 3)
    rw [if_pos ⟨hq2, by norm_num⟩, hcomb]
    show (if (1024 : ℚ) ≤ (n : ℚ) / 1048576 ∧ (2 : ℕ) < 3 then
        scaleLoopF 0 ((n : ℚ) / 1048576 / 1024) 3 else ((n : ℚ) / 1048576, 2)) =
      ((n : ℚ) / 1073741824, 3)
    rw [if_pos ⟨hq3, by norm_num⟩, hcomb2]
    rfl
  have hform : format_size n = fmt2 ((n : ℚ) / 1073741824) ++ " " ++ rustUnits 3 := by
    simp [format_size, hs]
  rw [hform, String.append_assoc]
  rfl

theorem pad2_length : ∀ n, n < 100 → (pad2 n).length = 2 := by decide

/-- C3: format_size picks the largest unit among B, KB, MB, GB whose scaled
magnitude is below 1024, capping at GB for arbitrarily large inputs; the B
tier prints a plain integer with no decimal point, every other tier prints
the magnitude with exactly two decimal digits; the spec's concrete examples
hold, and inputs of at least 1024 GB stay in the GB tier with magnitude at
least 1024. -/
theorem format_size_spec :
    format_size 0 = "0 B" ∧
    format_size 1023 = "1023 B" ∧
    format_size 1024 = "1.00 KB" ∧
    format_size 1536 = "1.50 KB" ∧
    format_size 1073741824 = "1.00 GB" ∧
    (∀ n : ℕ, n < 1024 → format_size n = Nat.repr n ++ " B") ∧
    (∀ n : ℕ, 1024 ≤ n → n < 1048576 →
      format_size n = fmt2 ((n : ℚ) / 1024) ++ " KB" ∧ (n : ℚ) / 1024 < 1024) ∧
    (∀ n : ℕ, 1048576 ≤ n → n < 1073741824 →
      format_size n = fmt2 ((n : ℚ) / 1048576) ++ " MB" ∧ (n : ℚ) / 1048576 < 1024) ∧
    (∀ n : ℕ, 1073741824 ≤ n → format_size n = fmt2 ((n : ℚ) / 1073741824) ++ " GB") ∧
    (∀ n : ℕ, 1024 * 1073741824 ≤ n → (1024 : ℚ) ≤ (n : ℚ) / 1073741824) ∧
    (∀ q : ℚ, fmt2 q = Nat.repr (rhe (q * 100) / 100) ++ "." ++ pad2 (rhe (q * 100) % 100) ∧
      (pad2 (rhe (q * 100) % 100)).length = 2) := by
  refine ⟨?_, ?_, ?_, ?_, ?_, format_size_b, format_size_kb, format_size_mb, format_size_gb,
    ?_, ?_⟩
  · norm_num [format_size, scaleLoopF, fmt2, rhe, floorNat, pad2, rustUnits]
    try simp
    try decide
  · norm_num [format_size, scaleLoopF, fmt2, rhe, floorNat, pad2, rustUnits]
    try simp
    try decide
  · norm_num [format_size, scaleLoopF, fmt2, rhe, floorNat, pad2, rustUnits]
    try simp
    try decide
  · norm_num [format_size, scaleLoopF, fmt2, rhe, floorNat, pad2, rustUnits]
    try simp
    try decide
  · norm_num [format_size, scaleLoopF, fmt2, rhe, floorNat, pad2, rustUnits]
    try simp
    try decide
  · intro n hn
    rw [le_div_iff (by norm_num : (0 : ℚ) < 1073741824)]
    norm_num
    exact_mod_cast hn
  · intro q
    exact ⟨rfl, pad2_length _ (Nat.mod_lt _ (by norm_num))⟩

theorem format_size_spec_witness :
    format_size 500 = Nat.repr 500 ++ " B" ∧
    format_size 2048 = fmt2 ((2048 : ℚ) / 1024) ++ " KB" ∧
    format_size 5242880 = fmt2 ((5242880 : ℚ) / 1048576) ++ " MB" ∧
    format_size 2147483648 = fmt2 ((2147483648 : ℚ) / 1073741824) ++ " GB" ∧
    (1024 : ℚ) ≤ ((1099511627776 : ℕ) : ℚ) / 1073741824 :=
  ⟨format_size_spec.2.2.2.2.2.1 500 (by norm_num),
   (format_size_spec.2.2.2.2.2.2.1 2048 (by norm_num) (by norm_num)).1,
   (format_size_spec.2.2.2.2.2.2.2.1 5242880 (by norm_num) (by norm_num)).1,
   format_size_spec.2.2.2.2.2.2.2.2.1 2147483648 (by norm_num),
   format_size_spec.2.2.2.2.2.2.2.2.2.1 1099511627776 (by norm_num)⟩

/-! ## Base64 roundtrip -/

theorem b64Dec_b64Enc : ∀ n, n < 64 → b64Dec (b64Enc n) = some n := by decide

theorem b64Enc_ne_pad : ∀ n, n < 64 → b64Enc n ≠ '=' := by decide

theorem decode_encodeChunks : ∀ (bs : List ℕ), (∀ b ∈ bs, b < 256) →
    decodeChunks (encodeChunks bs) = some bs
  | [], _ => rfl
  | [b0], h => by
    have hb0 : b0 < 256 := h b0 (by simp)
    have e0 : b64Dec (b64Enc (b0 / 4)) = some (b0 / 4) := b64Dec_b64Enc _ (by omega)
    have e1 : b64Dec (b64Enc (b0 % 4 * 16)) = some (b0 % 4 * 16) := b64Dec_b64Enc _ (by omega)
    simp only [encodeChunks, decodeChunks, e0, e1, if_pos rfl, List.cons.injEq]
    simp only [if_true, Option.some.injEq, List.cons.injEq, and_true]
    omega
  | [b0, b1], h => by
    have hb0 : b0 < 256 := h b0 (by simp)
    have hb1 : b1 < 256 := h b1 (by simp)
    have e0 : b64Dec (b64Enc (b0 / 4)) = some (b0 / 4) := b64Dec_b64Enc _ (by omega)
    have e1 : b64Dec (b64Enc (b0 % 4 * 16 + b1 / 16)) = some (b0 % 4 * 16 + b1 / 16) :=
      b64Dec_b64Enc _ (by omega)
    have e2 : b64Dec (b64Enc (b1 % 16 * 4)) = some (b1 % 16 * 4) := b64Dec_b64Enc _ (by omega)
    have ne2 : b64Enc (b1 % 16 * 4) ≠ '=' := b64Enc_ne_pad _ (by omega)
    simp only [encodeChunks, decodeChunks, e0, e1, e2, if_neg ne2, if_pos rfl]
    simp only [if_true, Option.some.injEq, List.cons.injEq, and_true]
    omega
  | b0 :: b1 :: b2 :: rest, h => by
    have hb0 : b0 < 256 := h b0 (by simp)
    have hb1 : b1 < 256 := h b1 (by simp)
    have hb2 : b2 < 256 := h b2 (by simp)
    have ih := decode_encodeChunks rest (fun b hb => h b (by simp [hb]))
    have e0 : b64Dec (b64Enc (b0 / 4)) = some (b0 / 4) := b64Dec_b64Enc _ (by omega)
    have e1 : b64Dec (b64Enc (b0 % 4 * 16 + b1 / 16)) = some (b0 % 4 * 16 + b1 / 16) :=
      b64Dec_b64Enc _ (by omega)
    have e2 : b64Dec (b64Enc (b1 % 16 * 4 + b2 / 64)) = some (b1 % 16 * 4 + b2 / 64) :=
      b64Dec_b64Enc _ (by omega)
    have e3 : b64Dec (b64Enc (b2 % 64)) = some (b2 % 64) := b64Dec_b64Enc _ (by omega)
    have ne2 : b64Enc (b1 % 16 * 4 + b2 / 64) ≠ '=' := b64Enc_ne_pad _ (by omega)
    have ne3 : b64Enc (b2 % 64) ≠ '=' := b64Enc_ne_pad _ (by omega)
    simp only [encodeChunks, decodeChunks, e0, e1, e2, e3, if_neg ne2, if_neg ne3, ih,
      Option.map_some', Option.some.injEq, List.cons.injEq, and_true]
    omega

/-! ## Claims about the component update pipeline -/

/-- C7: when the asynchronous byte read completes with an Err result, the
read callback panics (res.expect) instead of sending a Loaded message or
surfacing an error value. -/
theorem read_callback_error_panics :
    (∀ e : String, read_callback (.error e) = .panics "failed to read file") ∧
    (∀ (e : String) (msg : Msg), read_callback (.error e) ≠ .sends msg) := by
  constructor
  · intro e
    rfl
  · intro e msg hcontra
    exact CallbackResult.noConfusion hcontra

theorem read_callback_error_panics_witness :
    read_callback (.error "permission denied") = .panics "failed to read file" :=
  read_callback_error_panics.1 "permission denied"

/-- C6: the read callback stores exactly the standard base64 encoding of the
raw bytes (witnessed by a decoder roundtrip), the Loaded handler stores that
payload wholesale, and the preview image source is always the fixed
data:image/png prefix followed by the payload, for every state. -/
theorem loaded_payload_and_data_uri :
    (∀ bytes : List ℕ, read_callback (.ok bytes) = .sends (Msg.Loaded (base64_encode bytes))) ∧
    (∀ (m : Model) (bytes : List ℕ),
      (update m (Msg.Loaded (base64_encode bytes))).1.base64_data = some (base64_encode bytes)) ∧
    (∀ (m : Model) (data : String), m.image_info ≠ none →
      (update m (Msg.Loaded data)).2 = [Effect.SetImgSrc ("data:image/png;base64," ++ data)]) ∧
    (∀ bytes : List ℕ, (∀ b ∈ bytes, b < 256) →
      base64_decode (base64_encode bytes) = some bytes) ∧
    base64_encode [77, 97, 110] = "TWFu" := by
  refine ⟨fun bytes => rfl, ?_, ?_, ?_, by decide⟩
  · intro m bytes
    cases hi : m.image_info <;> simp [update, hi]
  · intro m data hi
    cases hi2 : m.image_info with
    | none => exact absurd hi2 hi
    | some info => simp [update, hi2]
  · intro bytes h
    exact decode_encodeChunks bytes h

theorem loaded_payload_and_data_uri_witness :
    base64_decode (base64_encode [77, 97, 110]) = some [77, 97, 110] ∧
    (update { createModel with
        image_info := some ⟨"PNG", "2.00 KB", "加载中...", "image/png", "加载中..."⟩ }
      (Msg.Loaded "TWFu")).2 =
      [Effect.SetImgSrc ("data:image/png;base64," ++ "TWFu")] :=
  ⟨loaded_payload_and_data_uri.2.2.2.1 [77, 97, 110] (by decide),
   loaded_payload_and_data_uri.2.2.1 _ "TWFu" (by decide)⟩

/-- C8: no message mutates the stored base64 payload in place: every message
other than Loaded leaves base64_data unchanged, and Loaded replaces it
wholesale with the complete new encoding. -/
theorem base64_data_only_replaced :
    ∀ (m : Model) (msg : Msg),
      ((∀ d, msg ≠ Msg.Loaded d) → (update m msg).1.base64_data = m.base64_data) ∧
      (∀ d, msg = Msg.Loaded d → (update m msg).1.base64_data = some d) := by
  intro m msg
  constructor
  · intro hnl
    cases msg with
    | FileSelected f => simp [update]
    | Loaded d => exact absurd rfl (hnl d)
    | Files fs => simp [update]
    | ToggleModal => simp [update]
    | CopyBase64 => cases hb : m.base64_data <;> simp [update, hb]
    | ResetCopyButton => simp [update]
    | UpdateDimensions d => cases hi : m.image_info <;> simp [update, hi]
    | UpdateImageInfo d r => cases hi : m.image_info <;> simp [update, hi]
  · intro d hd
    subst hd
    cases hi : m.image_info <;> simp [update, hi]

theorem base64_data_only_replaced_witness :
    (update createModel Msg.ToggleModal).1.base64_data = createModel.base64_data ∧
    (update createModel (Msg.Loaded "TWFu")).1.base64_data = some "TWFu" :=
  ⟨(base64_data_only_replaced createModel Msg.ToggleModal).1 (fun d h => Msg.noConfusion h),
   (base64_data_only_replaced createModel (Msg.Loaded "TWFu")).2 "TWFu" rfl⟩

/-- C9: FileSelected synchronously fills format, size and MIME type and puts
the loading placeholder in the dimension and aspect-ratio fields;
UpdateImageInfo later changes only the dimension and aspect-ratio fields,
keeping format, size and MIME type, and does nothing when image_info is
None. -/
theorem image_info_update_frame :
    (∀ (m : Model) (f : RFile),
      (update m (Msg.FileSelected f)).1.image_info =
        some { format := get_file_format f.name
               size := format_size f.size
               dimensions := "加载中..."
               mime_type := f.raw_mime_type
               aspect_ratio := "加载中..." }) ∧
    (∀ (m : Model) (dims ratio : String) (info : ImageInfo), m.image_info = some info →
      (update m (Msg.UpdateImageInfo dims ratio)).1.image_info =
        some { info with dimensions := dims, aspect_ratio := ratio }) ∧
    (∀ (m : Model) (dims ratio : String), m.image_info = none →
      (update m (Msg.UpdateImageInfo dims ratio)).1.image_info = none) := by
  refine ⟨?_, ?_, ?_⟩
  · intro m f
    simp [update]
  · intro m dims ratio info hi
    simp [update, hi]
  · intro m dims ratio hi
    simp [update, hi]

theorem image_info_update_frame_witness :
    (update createModel (Msg.FileSelected ⟨"a.png", 2048, "image/png"⟩)).1.image_info =
      some { format := get_file_format "a.png"
             size := format_size 2048
             dimensions := "加载中..."
             mime_type := "image/png"
             aspect_ratio := "加载中..." } ∧
    (update { createModel with
        image_info := some ⟨"PNG", "2.00 KB", "加载中...", "image/png", "加载中..."⟩ }
      (Msg.UpdateImageInfo "500×500 px" "1:1")).1.image_info =
      some ⟨"PNG", "2.00 KB", "500×500 px", "image/png", "1:1"⟩ ∧
    (update createModel (Msg.UpdateImageInfo "500×500 px" "1:1")).1.image_info = none :=
  ⟨image_info_update_frame.1 createModel ⟨"a.png", 2048, "image/png"⟩,
   image_info_update_frame.2.1 _ "500×500 px" "1:1"
     ⟨"PNG", "2.00 KB", "加载中...", "image/png", "加载中..."⟩ rfl,
   image_info_update_frame.2.2 createModel "500×500 px" "1:1" rfl⟩

end ImageBase64
